import Mathlib

/-!
Shallow embedding of the pooppi-export scoreboard module.

This file embeds the data model and the operations of `src/stats/mod.rs`:
the NBT tag tree (`Value`), the typed records `Objective` and `PlayerScore`
with their `TryFrom<&Value>` decoders, the `Stats` aggregate with
`parse_blob`, `get_player_list`, `write_csv` and `write_to_sql`, and proves
the specification's claims about them.

Maps (`nbt::Map<String, _>`, a hash map with unique keys and unspecified
iteration order) are embedded as association lists; iteration order is the
list order, and map identity up to iteration order is `List.Perm` together
with `Nodup` of the key list.  Machine integers (`i8`, `i64`) are embedded
as `Int`; the only conversion the code performs is the sign-extending
widening `as i64`, which is the identity on the represented values.
Fallible code returns `Except`/`Option`, and `parse_blob`, which can also
panic, returns a `DecodeOutcome` with an explicit `panicked` constructor.
-/

namespace PooppiExport

/-- The dynamically-typed NBT tag tree (`nbt::Value` of the external tag
library): compound/list nodes and the scalar variants.  The payloads of the
floating-point variants are irrelevant to the decoder (they can only appear
as wrong-typed data) and are not modelled. -/
inductive Value : Type where
  | byte (v : Int)
  | short (v : Int)
  | int (v : Int)
  | long (v : Int)
  | float
  | double
  | byteArray (v : List Int)
  | string (s : String)
  | list (vs : List Value)
  | compound (m : List (String × Value))
  | intArray (v : List Int)
  | longArray (v : List Int)

/-- Map lookup (`nbt::Map::get`): look a key up in an association-list map (first match,
and the only match when the key list is `Nodup`). -/
def mapGet {β : Type _} (m : List (String × β)) (k : String) : Option β :=
  (m.find? (fun p => p.1 == k)).map (fun p => p.2)

/-- Map insertion (`nbt::Map::insert`): replace the value at an existing key, otherwise
append the new binding. -/
def mapInsert {β : Type _} : List (String × β) → String → β → List (String × β)
  | [], k, v => [(k, v)]
  | (k₀, v₀) :: rest, k, v =>
    if k₀ = k then (k, v) :: rest else (k₀, v₀) :: mapInsert rest k v

/-- The error type `stats::Error` (src/stats/mod.rs lines 15-25). -/
inductive Error : Type where
  | MissingNbtField (field : String)
  | WrongTypeNbtField (field : String) (expected_type : String) (real_data : Value)

/-- The `Objective` record (src/stats/mod.rs lines 211-216); `display_auto_update` is
an `i8` in the source. -/
structure Objective where
  criteria_name : String
  display_auto_update : Int
  display_name : String
  render_type : String
deriving DecidableEq

/-- The `PlayerScore` record (src/stats/mod.rs lines 305-309); `locked` is an `i8` and
`score` an `i64` in the source. -/
structure PlayerScore where
  locked : Int
  player_name : String
  score : Int
deriving DecidableEq

/-- The `DisplayName` stripping step of `Objective::try_from`
(src/stats/mod.rs lines 268-273): a char iterator is advanced once from the
front (`chars.next()`) and once from the back (`chars.next_back()`) and the
remaining slice is kept. -/
def stripDisplayName (s : String) : String :=
  ⟨(s.toList.drop 1).dropLast⟩

/-- The decoder `Objective::try_from(&Value)` (src/stats/mod.rs lines 231-302).  Field
extraction happens in source order (CriteriaName, display_auto_update,
DisplayName, RenderType) with the first failure short-circuiting; the
misspelled field names "RenderTyoe" and "Compund" in two error arms are the
source's own spelling. -/
def Objective.tryFrom (value : Value) : Except Error Objective :=
  match value with
  | .compound val =>
    match mapGet val "CriteriaName" with
    | none => .error (.MissingNbtField "CriteriaName")
    | some (.string cn) =>
      match mapGet val "display_auto_update" with
      | none => .error (.MissingNbtField "display_auto_update")
      | some (.byte dau) =>
        match mapGet val "DisplayName" with
        | none => .error (.MissingNbtField "DisplayName")
        | some (.string dn) =>
          match mapGet val "RenderType" with
          | none => .error (.MissingNbtField "RenderType")
          | some (.string rt) =>
            .ok ⟨cn, dau, stripDisplayName dn, rt⟩
          | some v => .error (.WrongTypeNbtField "RenderTyoe" "String" v)
        | some v => .error (.WrongTypeNbtField "DisplayName" "String" v)
      | some v => .error (.WrongTypeNbtField "display_auto_update" "Byte" v)
    | some v => .error (.WrongTypeNbtField "CriteriaName" "String" v)
  | v => .error (.WrongTypeNbtField "objective" "Compund" v)

/-- The decoder `PlayerScore::try_from(&Value)` (src/stats/mod.rs lines 327-374).
Field extraction happens in source order (Locked, Name, Score) with the
first failure short-circuiting; the `Score` arm accepts the four signed
integer widths, widening each to `i64` (which on `Int` payloads is the
identity), and rejects every other node kind. -/
def PlayerScore.tryFrom (value : Value) : Except Error PlayerScore :=
  match value with
  | .compound val =>
    match mapGet val "Locked" with
    | none => .error (.MissingNbtField "Locked")
    | some (.byte lk) =>
      match mapGet val "Name" with
      | none => .error (.MissingNbtField "Name")
      | some (.string nm) =>
        match mapGet val "Score" with
        | none => .error (.MissingNbtField "Score")
        | some (.long sc) => .ok ⟨lk, nm, sc⟩
        | some (.int sc) => .ok ⟨lk, nm, sc⟩
        | some (.short sc) => .ok ⟨lk, nm, sc⟩
        | some (.byte sc) => .ok ⟨lk, nm, sc⟩
        | some v => .error (.WrongTypeNbtField "Score" "Long, Int, Short, Byte" v)
      | some v => .error (.WrongTypeNbtField "Name" "String" v)
    | some v => .error (.WrongTypeNbtField "Locked" "Byte" v)
  | v => .error (.WrongTypeNbtField "PlayerScores" "Compound" v)

/-- The `Stats` aggregate (src/stats/mod.rs lines 29-32): `Objectives` and
`PlayerScores` maps, embedded as association lists whose order is the
map's (unspecified) iteration order. -/
structure Stats where
  objectives : List (String × Objective)
  player_scores : List (String × List PlayerScore)

/-- Modelled from the spec: the textual coercion (a field "coerced to its
textual representation") that the external tag library's `to_string`
performs on a tag value.  Only string-tag keys occur in well-formed input;
the library's exact rendering of the other node kinds is outside the
repository, so they are rendered structurally. -/
def valueToString : Value → String
  | .byte v => toString v
  | .short v => toString v
  | .int v => toString v
  | .long v => toString v
  | .float => "Float"
  | .double => "Double"
  | .byteArray _ => "ByteArray"
  | .string s => s
  | .list _ => "List"
  | .compound _ => "Compound"
  | .intArray _ => "IntArray"
  | .longArray _ => "LongArray"

/-- The decode errors `parse_blob` can produce: the `anyhow` bail/context
messages of src/stats/mod.rs lines 39-99, as structured data. -/
inductive ParseError : Type where
  | missingData
  | dataNotCompound
  | missingObjectives
  | objectivesNotList
  | objectiveParse (key : String) (e : Error)
  | missingPlayerScores
  | playerScoreParse (e : Error)

/-- Outcome of running code that can return a value, return an error, or
panic (Rust `unwrap`/`panic!`). -/
inductive DecodeOutcome (α : Type) : Type where
  | ok (val : α)
  | error (e : ParseError)
  | panicked (msg : String)

/-- The `Objectives` loop of `parse_blob` (src/stats/mod.rs lines 53-69):
non-compound elements are skipped silently; for a compound element the
`Name` key is read with `.unwrap()` (panicking when absent), then the
element is decoded as an `Objective` (a failure aborts with context) and
inserted under the stringified key. -/
def parseObjectivesLoop : List Value → List (String × Objective) →
    DecodeOutcome (List (String × Objective))
  | [], acc => .ok acc
  | v :: rest, acc =>
    match v with
    | .compound objective_map =>
      match mapGet objective_map "Name" with
      | none => .panicked "called Option::unwrap() on a None value"
      | some nameVal =>
        match Objective.tryFrom (.compound objective_map) with
        | .error e => .error (.objectiveParse (valueToString nameVal) e)
        | .ok obj =>
          parseObjectivesLoop rest (mapInsert acc (valueToString nameVal) obj)
    | _ => parseObjectivesLoop rest acc

/-- Appending a `PlayerScore` under its objective key (src/stats/mod.rs
lines 86-94): push onto the existing list when the key is present,
otherwise insert a fresh singleton list. -/
def pushScore : List (String × List PlayerScore) → String → PlayerScore →
    List (String × List PlayerScore)
  | [], k, p => [(k, [p])]
  | (k₀, l) :: rest, k, p =>
    if k₀ = k then (k, l ++ [p]) :: rest else (k₀, l) :: pushScore rest k p

/-- The `PlayerScores` loop of `parse_blob` (src/stats/mod.rs lines
80-99): non-compound elements are skipped silently; for a compound element
the `Objective` key is read with `.unwrap()` (panicking when absent), then
the element is decoded as a `PlayerScore` (a failure aborts) and appended
to the list for that key. -/
def parsePlayerScoresLoop : List Value → List (String × List PlayerScore) →
    DecodeOutcome (List (String × List PlayerScore))
  | [], acc => .ok acc
  | v :: rest, acc =>
    match v with
    | .compound player_scores_map =>
      match mapGet player_scores_map "Objective" with
      | none => .panicked "called Option::unwrap() on a None value"
      | some objVal =>
        match PlayerScore.tryFrom (.compound player_scores_map) with
        | .error e => .error (.playerScoreParse e)
        | .ok ps =>
          parsePlayerScoresLoop rest (pushScore acc (valueToString objVal) ps)
    | _ => parsePlayerScoresLoop rest acc

/-- Assembling the aggregate from the `PlayerScores` loop's outcome: an
error or panic of the loop propagates (the source's `?` operator),
otherwise the two finished maps form the `Stats` value
(src/stats/mod.rs lines 101-104). -/
def parseBlobFinish (objectives : List (String × Objective)) :
    DecodeOutcome (List (String × List PlayerScore)) → DecodeOutcome Stats
  | .error e => .error e
  | .panicked msg => .panicked msg
  | .ok player_scores => .ok ⟨objectives, player_scores⟩

/-- The tail of `parse_blob` after the `Objectives` loop (src/stats/mod.rs
lines 71-104).  The source re-matches `data` here with a `panic!()` arm
for a non-compound `data`; that arm is unreachable because the first match
already bailed, so this function receives the compound's entries directly.
A `PlayerScores` field that is present but not a list hits the source's
`panic!("Why is this not a list?")` arm. -/
def parseBlobPlayerScores (x : List (String × Value))
    (objectives : List (String × Objective)) : DecodeOutcome Stats :=
  match mapGet x "PlayerScores" with
  | none => .error .missingPlayerScores
  | some (.list raw_player_scores) =>
    parseBlobFinish objectives (parsePlayerScoresLoop raw_player_scores [])
  | some _ => .panicked "Why is this not a list?"

/-- Continuing after the `Objectives` loop: an error or panic of the loop
propagates (the source's `?` operator), otherwise decoding proceeds to the
`PlayerScores` field. -/
def parseBlobAfterObjectives (x : List (String × Value)) :
    DecodeOutcome (List (String × Objective)) → DecodeOutcome Stats
  | .error e => .error e
  | .panicked msg => .panicked msg
  | .ok objectives => parseBlobPlayerScores x objectives

/-- The `Objectives` part of `parse_blob` (src/stats/mod.rs lines 44-69):
a missing `Objectives` field and a non-list `Objectives` field are errors;
a list runs the element loop and continues. -/
def parseBlobObjectives (x : List (String × Value)) : DecodeOutcome Stats :=
  match mapGet x "Objectives" with
  | none => .error .missingObjectives
  | some (.list raw_objectives) =>
    parseBlobAfterObjectives x (parseObjectivesLoop raw_objectives [])
  | some _ => .error .objectivesNotList

/-- The decoder entry point `Stats::parse_blob` (src/stats/mod.rs lines 39-105).  The blob is the
top-level compound's entries.  A missing `data` field and a non-compound
`data` are errors; for a compound the rest is `parseBlobObjectives`. -/
def Stats.parse_blob (blob : List (String × Value)) : DecodeOutcome Stats :=
  match mapGet blob "data" with
  | none => .error .missingData
  | some (.compound x) => parseBlobObjectives x
  | some _ => .error .dataNotCompound

/-- Rust's `Vec::dedup` (used in `get_player_list`, src/stats/mod.rs line 158):
remove consecutive repeated elements, keeping one element of each run. -/
def rustDedup {α : Type _} [DecidableEq α] : List α → List α
  | [] => []
  | [a] => [a]
  | a :: b :: rest =>
    if a = b then rustDedup (b :: rest) else a :: rustDedup (b :: rest)

/-- The query `Stats::get_player_list` (src/stats/mod.rs lines 149-161): flatten the
score lists of every objective, keep the player names, sort
(`sort_unstable`, embedded as `insertionSort` — for the linear order on
`String` every correct sort produces the same list) and dedup. -/
def Stats.get_player_list (s : Stats) : List String :=
  rustDedup (List.insertionSort (· ≤ ·)
    ((s.player_scores.flatMap (fun x => x.2)).map (fun x => x.player_name)))

/-- Modelled from the spec: whether the external csv writer must quote a
field (its default quoting style quotes a field that contains the quote
char, the delimiter or a record-terminator char). -/
def needsQuote (s : String) : Bool :=
  s.toList.any (fun c => c == ',' || c == '"' || c == Char.ofNat 10 || c == Char.ofNat 13)

/-- Modelled from the spec: the external csv writer's quote escaping (the
quote char is doubled inside a quoted field). -/
def escapeQuotes (s : String) : String :=
  ⟨s.toList.flatMap (fun c => if c == '"' then ['"', '"'] else [c])⟩

/-- Modelled from the spec: one field as the external csv writer emits it. -/
def csvField (s : String) : String :=
  if needsQuote s then "\"" ++ escapeQuotes s ++ "\"" else s

/-- Modelled from the spec: one record as the external csv writer emits it
("comma-delimited text", records terminated by a newline). -/
def csvRecord (r : List String) : String :=
  String.intercalate "," (r.map csvField) ++ "\n"

/-- Modelled from the spec: the byte output of the external csv writer for
a sequence of records. -/
def csvRows (rows : List (List String)) : String :=
  String.join (rows.map csvRecord)

/-- The sorted objective-identifier list `titles` of `Stats::write_csv`
(src/stats/mod.rs lines 164-165). -/
def Stats.titles (s : Stats) : List String :=
  List.insertionSort (· ≤ ·) (s.objectives.map Prod.fst)

/-- The header row of `Stats::write_csv` (src/stats/mod.rs lines 169-175):
`"Players"` followed, for each title, by the display name of
`objectives.get(title).unwrap()`.  The `.unwrap()` panic on a failed
lookup is modelled as `none`. -/
def Stats.top_row (s : Stats) : Option (List String) :=
  (s.titles.mapM (fun i => (mapGet s.objectives i).map (fun o => o.display_name))).map
    (fun names => "Players" :: names)

/-- One body cell of `Stats::write_csv` (src/stats/mod.rs lines 188-199):
look up the title's score list, find the first entry for the player and
render its score in decimal, defaulting to `"0"`. -/
def Stats.csv_cell (s : Stats) (player title : String) : String :=
  ((mapGet s.player_scores title).bind
    (fun x => (x.find? (fun e => e.player_name == player)).map
      (fun e => toString e.score))).getD "0"

/-- The records `Stats::write_csv` writes (src/stats/mod.rs lines
163-206): the header row, then one row per player of `get_player_list`,
each holding the player name followed by one cell per title.  `none`
models the `.unwrap()` panic in the header construction. -/
def Stats.write_csv_rows (s : Stats) : Option (List (List String)) :=
  s.top_row.map (fun top =>
    top :: s.get_player_list.map (fun player =>
      player :: s.titles.map (fun title => s.csv_cell player title)))

/-- The bytes `Stats::write_csv` leaves in the sink. -/
def Stats.write_csv_string (s : Stats) : Option String :=
  s.write_csv_rows.map csvRows

/-- One SQL statement issued by `Stats::write_to_sql`, with its bound
parameters; `T` is the caller's timestamp type (`DateTime<Utc>`). -/
inductive SqlStmt (T : Type) : Type where
  | insertIgnorePlayer (player_name : String)
  | insertIgnoreObjective (objective_name display_name criteria_name : String)
  | insertStat (score : Int) (player_name objective_name : String) (time : T)
deriving DecidableEq

/-- The exporter `Stats::write_to_sql` (src/stats/mod.rs lines 107-147) as the ordered
trace of statements it issues: the `INSERT IGNORE` of every player of
`get_player_list`, then the `INSERT IGNORE` of every objective in map
iteration order, then a plain `INSERT` for every (objective, score) pair,
each binding the caller's `timestamp`. -/
def Stats.write_to_sql {T : Type} (s : Stats) (timestamp : T) : List (SqlStmt T) :=
  (s.get_player_list.map (fun p => SqlStmt.insertIgnorePlayer p))
  ++ (s.objectives.map (fun x =>
        SqlStmt.insertIgnoreObjective x.1 x.2.display_name x.2.criteria_name))
  ++ (s.player_scores.flatMap (fun x =>
        x.2.map (fun ps => SqlStmt.insertStat ps.score ps.player_name x.1 timestamp)))

/-! ## Helper lemmas -/

theorem mem_rustDedup {α : Type _} [DecidableEq α] (a : α) :
    ∀ l : List α, a ∈ rustDedup l ↔ a ∈ l
  | [] => by simp [rustDedup]
  | [b] => by simp [rustDedup]
  | b :: c :: rest => by
    by_cases h : b = c
    · subst h
      rw [rustDedup, if_pos rfl, mem_rustDedup a (b :: rest)]
      simp
    · rw [rustDedup, if_neg h]
      simp [mem_rustDedup a (c :: rest)]

theorem sorted_rustDedup {α : Type _} [LinearOrder α] [DecidableEq α] :
    ∀ l : List α, l.Sorted (· ≤ ·) → (rustDedup l).Sorted (· < ·)
  | [], _ => by simp [rustDedup]
  | [a], _ => by simp [rustDedup]
  | a :: b :: rest, h => by
    have htail : (b :: rest).Sorted (· ≤ ·) := h.of_cons
    have hab : a ≤ b := (List.sorted_cons.mp h).1 b (by simp)
    have ih := sorted_rustDedup (b :: rest) htail
    by_cases hEq : a = b
    · rw [rustDedup, if_pos hEq]; exact ih
    · rw [rustDedup, if_neg hEq]
      refine List.sorted_cons.mpr ⟨?_, ih⟩
      intro x hx
      have hxmem : x ∈ b :: rest := (mem_rustDedup x (b :: rest)).mp hx
      have hbx : b ≤ x := by
        rcases List.mem_cons.mp hxmem with rfl | hx₂
        · exact le_refl x
        · exact (List.sorted_cons.mp htail).1 x hx₂
      exact lt_of_lt_of_le (lt_of_le_of_ne hab hEq) hbx

theorem insertionSort_eq_of_perm {α : Type _} [LinearOrder α] {l₁ l₂ : List α}
    (h : l₁.Perm l₂) :
    List.insertionSort (· ≤ ·) l₁ = List.insertionSort (· ≤ ·) l₂ :=
  List.eq_of_perm_of_sorted
    ((List.perm_insertionSort _ l₁).trans (h.trans (List.perm_insertionSort _ l₂).symm))
    (List.sorted_insertionSort _ l₁) (List.sorted_insertionSort _ l₂)

theorem mapGet_isSome_of_mem_keys {β : Type _} {m : List (String × β)} {k : String}
    (h : k ∈ m.map Prod.fst) : (mapGet m k).isSome := by
  induction m with
  | nil => simp at h
  | cons p rest ih =>
    simp only [List.map_cons, List.mem_cons] at h
    by_cases hpk : p.1 == k
    · simp [mapGet, List.find?_cons, hpk]
    · rcases h with h | h
      · exact absurd (by simp [h]) hpk
      · simpa [mapGet, List.find?_cons, hpk] using ih h

theorem mapGet_perm {β : Type _} {m₁ m₂ : List (String × β)} (h : m₁.Perm m₂) :
    (m₁.map Prod.fst).Nodup → ∀ k, mapGet m₁ k = mapGet m₂ k := by
  induction h with
  | nil => intro _ _; rfl
  | cons x h ih =>
    intro hnd k
    have hnd₂ : (List.map Prod.fst _).Nodup := (List.nodup_cons.mp (by simpa using hnd)).2
    by_cases hx : x.1 == k
    · simp [mapGet, List.find?_cons, hx]
    · simpa [mapGet, List.find?_cons, hx] using ih hnd₂ k
  | swap x y l =>
    intro hnd k
    have hxy : y.1 ≠ x.1 := by
      have h0 : (List.map Prod.fst (y :: x :: l)).Nodup := hnd
      simp only [List.map_cons, List.nodup_cons, List.mem_cons] at h0
      exact fun hc => h0.1 (Or.inl hc)
    by_cases hy : y.1 == k <;> by_cases hx : x.1 == k
    · exact absurd (eq_of_beq hy |>.trans (eq_of_beq hx).symm) hxy
    · simp [mapGet, List.find?_cons, hx, hy]
    · simp [mapGet, List.find?_cons, hx, hy]
    · simp [mapGet, List.find?_cons, hx, hy]
  | trans h₁ h₂ ih₁ ih₂ =>
    intro hnd k
    have hnd₂ := ((h₁.map Prod.fst).nodup_iff).mp hnd
    exact (ih₁ hnd k).trans (ih₂ hnd₂ k)

theorem mapM_isSome_of_forall {α β : Type} {f : α → Option β} :
    ∀ {l : List α}, (∀ a ∈ l, (f a).isSome) → ∃ ys, l.mapM f = some ys
  | [], _ => ⟨[], rfl⟩
  | a :: l, h => by
    obtain ⟨b, hb⟩ := Option.isSome_iff_exists.mp (h a (by simp))
    obtain ⟨ys, hys⟩ :=
      mapM_isSome_of_forall (l := l) (fun x hx => h x (by simp [hx]))
    exact ⟨b :: ys, by rw [List.mapM_cons, hb, hys]; rfl⟩

theorem titles_mapGet_isSome (s : Stats) :
    ∀ i ∈ s.titles, ((mapGet s.objectives i).map (fun o => o.display_name)).isSome := by
  intro i hi
  have hmem : i ∈ s.objectives.map Prod.fst :=
    (List.perm_insertionSort (· ≤ ·) (s.objectives.map Prod.fst)).mem_iff.mp hi
  have hsome := mapGet_isSome_of_mem_keys hmem
  cases hmg : mapGet s.objectives i with
  | none => rw [hmg] at hsome; simp at hsome
  | some o => simp

theorem write_csv_rows_eq (s : Stats) :
    ∃ disp,
      s.titles.mapM (fun i => (mapGet s.objectives i).map (fun o => o.display_name))
        = some disp ∧
      s.write_csv_rows = some (("Players" :: disp) ::
        s.get_player_list.map (fun player =>
          player :: s.titles.map (fun title => s.csv_cell player title))) := by
  obtain ⟨disp, hdisp⟩ :=
    mapM_isSome_of_forall (l := s.titles) (titles_mapGet_isSome s)
  refine ⟨disp, hdisp, ?_⟩
  unfold Stats.write_csv_rows Stats.top_row
  rw [hdisp]
  rfl

theorem csv_cell_eq_match (s : Stats) (player title : String) :
    s.csv_cell player title =
      match mapGet s.player_scores title with
      | none => "0"
      | some scores =>
        match scores.find? (fun e => e.player_name == player) with
        | none => "0"
        | some e => toString e.score := by
  unfold Stats.csv_cell
  cases mapGet s.player_scores title with
  | none => rfl
  | some scores =>
    show ((scores.find? (fun e => e.player_name == player)).map
        (fun e => toString e.score)).getD "0"
      = match scores.find? (fun e => e.player_name == player) with
        | none => "0"
        | some e => toString e.score
    cases scores.find? (fun e => e.player_name == player) with
    | none => rfl
    | some e => rfl

/-! ## Claim theorems -/

/-- C1: for every decoded `Stats` aggregate, `get_player_list` (the spec's
`distinct_players`) is strictly sorted in codepoint-lexicographic order
(hence duplicate-free), and its members are exactly the player names
occurring in some `PlayerScore` list of some objective, regardless of
duplicates or ordering in the source lists. -/
theorem get_player_list_correct (s : Stats) :
    s.get_player_list.Sorted (· < ·) ∧
    ∀ name : String,
      name ∈ s.get_player_list ↔
        ∃ pr ∈ s.player_scores, ∃ ps ∈ pr.2, ps.player_name = name := by
  constructor
  · unfold Stats.get_player_list
    exact sorted_rustDedup (α := String) _
      (List.sorted_insertionSort (α := String) (· ≤ ·) _)
  · intro name
    unfold Stats.get_player_list
    rw [mem_rustDedup,
      (List.perm_insertionSort (α := String) (· ≤ ·) _).mem_iff]
    simp only [List.mem_map, List.mem_flatMap]
    constructor
    · rintro ⟨ps, ⟨pr, hpr, hps⟩, hname⟩
      exact ⟨pr, hpr, ps, hps, hname⟩
    · rintro ⟨pr, hpr, ps, hps, hname⟩
      exact ⟨ps, ⟨pr, hpr, hps⟩, hname⟩

/-- C2: in the records written by `write_csv`, every body row consists of
the player name followed, for each objective column in sorted order, by
`"0"` when the objective has no score list or its list has no entry for
the row's player, and otherwise by the decimal rendering of the first
matching entry's score. -/
theorem write_csv_cell_default (s : Stats) :
    ∃ disp, s.write_csv_rows = some (("Players" :: disp) ::
      s.get_player_list.map (fun player =>
        player :: s.titles.map (fun title =>
          match mapGet s.player_scores title with
          | none => "0"
          | some scores =>
            match scores.find? (fun e => e.player_name == player) with
            | none => "0"
            | some e => toString e.score))) := by
  obtain ⟨disp, _, hrows⟩ := write_csv_rows_eq s
  refine ⟨disp, hrows.trans ?_⟩
  simp only [csv_cell_eq_match]

/-- C5: the first record written by `write_csv` is the header row:
`"Players"` followed by the display name of each objective, one per entry
of the `Objectives` mapping, in the order of the lexicographically sorted
objective identifiers (`titles`). -/
theorem write_csv_header (s : Stats) :
    ∃ disp rest,
      s.titles.mapM (fun i => (mapGet s.objectives i).map (fun o => o.display_name))
        = some disp ∧
      s.write_csv_rows = some (("Players" :: disp) :: rest) := by
  obtain ⟨disp, hdisp, hrows⟩ := write_csv_rows_eq s
  exact ⟨disp, _, hdisp, hrows⟩

/-- C4: `write_csv` output is a function of the map contents alone: for
two aggregates whose `Objectives` and `PlayerScores` association lists are
permutations of each other (the same maps under different iteration
orders, keys unique as in a real map), the emitted byte streams are
identical.  Two invocations on one aggregate are the same function
application, so this also gives byte-identical output for repeated
export of one decode, and for two decodes of the same input, whose maps
hold equal entries in whatever iteration order. -/
theorem write_csv_deterministic (s t : Stats)
    (hobj : s.objectives.Perm t.objectives)
    (hps : s.player_scores.Perm t.player_scores)
    (hko : (s.objectives.map Prod.fst).Nodup)
    (hkp : (s.player_scores.map Prod.fst).Nodup) :
    s.write_csv_string = t.write_csv_string := by
  have htitles : s.titles = t.titles := by
    unfold Stats.titles
    exact insertionSort_eq_of_perm (hobj.map Prod.fst)
  have hmgo : ∀ k, mapGet s.objectives k = mapGet t.objectives k :=
    mapGet_perm hobj hko
  have hmgp : ∀ k, mapGet s.player_scores k = mapGet t.player_scores k :=
    mapGet_perm hps hkp
  have hplayers : s.get_player_list = t.get_player_list := by
    unfold Stats.get_player_list
    rw [insertionSort_eq_of_perm ((hps.flatMap_right _).map _)]
  have htop : s.top_row = t.top_row := by
    have hf : (fun i => (mapGet s.objectives i).map (fun o => o.display_name))
        = (fun i => (mapGet t.objectives i).map (fun o => o.display_name)) :=
      funext (fun i => by rw [hmgo])
    unfold Stats.top_row
    rw [htitles, hf]
  have hcell : ∀ p ti, s.csv_cell p ti = t.csv_cell p ti := by
    intro p ti
    unfold Stats.csv_cell
    rw [hmgp]
  unfold Stats.write_csv_string Stats.write_csv_rows
  rw [htop, htitles, hplayers]
  simp only [hcell]

/-- C8: the statement trace of `write_to_sql` is the player upserts (in
`get_player_list` order), then the objective upserts (one per map entry),
then the plain score inserts (one per (objective, score) pair), and every
score insert in the trace binds the caller's timestamp. -/
theorem write_to_sql_ordered {T : Type} (s : Stats) (ts : T) :
    s.write_to_sql ts =
      (s.get_player_list.map (fun p => SqlStmt.insertIgnorePlayer p))
      ++ (s.objectives.map (fun x =>
            SqlStmt.insertIgnoreObjective x.1 x.2.display_name x.2.criteria_name))
      ++ (s.player_scores.flatMap (fun x =>
            x.2.map (fun ps => SqlStmt.insertStat ps.score ps.player_name x.1 ts)))
    ∧ ∀ (sc : Int) (pn obn : String) (tm : T),
        SqlStmt.insertStat sc pn obn tm ∈ s.write_to_sql ts → tm = ts := by
  refine ⟨rfl, ?_⟩
  intro sc pn obn tm hmem
  unfold Stats.write_to_sql at hmem
  simp only [List.mem_append, List.mem_map, List.mem_flatMap] at hmem
  rcases hmem with (⟨p, _, hp⟩ | ⟨x, _, hx⟩) | ⟨x, _, ps, _, hps⟩
  · exact absurd hp (fun h => SqlStmt.noConfusion h)
  · exact absurd hx (fun h => SqlStmt.noConfusion h)
  · cases hps
    rfl

/-! ## Sample data for witnesses -/

def sampleObjA : Objective := ⟨"minecraft.custom:deaths", 0, "Deaths", "integer"⟩

def sampleObjB : Objective := ⟨"minecraft.custom:jumps", 1, "Jumps", "integer"⟩

def samplePsAlice : PlayerScore := ⟨0, "Alice", 3⟩

def samplePsBob : PlayerScore := ⟨0, "Bob", 5⟩

/-- A decoded aggregate with two objectives, in one iteration order. -/
def sampleStats : Stats :=
  ⟨[("deaths", sampleObjA), ("jumps", sampleObjB)],
   [("deaths", [samplePsAlice]), ("jumps", [samplePsBob])]⟩

/-- The same aggregate under the opposite iteration order of both maps. -/
def sampleStatsRev : Stats :=
  ⟨[("jumps", sampleObjB), ("deaths", sampleObjA)],
   [("jumps", [samplePsBob]), ("deaths", [samplePsAlice])]⟩

/-- Witness for C4 at a concrete pair of aggregates that differ only in
map iteration order. -/
theorem write_csv_deterministic_witness :
    sampleStats.objectives.Perm sampleStatsRev.objectives ∧
    sampleStats.player_scores.Perm sampleStatsRev.player_scores ∧
    (sampleStats.objectives.map Prod.fst).Nodup ∧
    (sampleStats.player_scores.map Prod.fst).Nodup ∧
    sampleStats.write_csv_string = sampleStatsRev.write_csv_string :=
  ⟨List.Perm.swap ("jumps", sampleObjB) ("deaths", sampleObjA) [],
   List.Perm.swap ("jumps", [samplePsBob]) ("deaths", [samplePsAlice]) [],
   by decide,
   by decide,
   write_csv_deterministic sampleStats sampleStatsRev
     (List.Perm.swap ("jumps", sampleObjB) ("deaths", sampleObjA) [])
     (List.Perm.swap ("jumps", [samplePsBob]) ("deaths", [samplePsAlice]) [])
     (by decide) (by decide)⟩

/-- Witness for C8 at a concrete aggregate and timestamp. -/
theorem write_to_sql_ordered_witness :
    sampleStats.write_to_sql (0 : Int) =
      (sampleStats.get_player_list.map (fun p => SqlStmt.insertIgnorePlayer p))
      ++ (sampleStats.objectives.map (fun x =>
            SqlStmt.insertIgnoreObjective x.1 x.2.display_name x.2.criteria_name))
      ++ (sampleStats.player_scores.flatMap (fun x =>
            x.2.map (fun ps =>
              SqlStmt.insertStat ps.score ps.player_name x.1 (0 : Int)))) :=
  (write_to_sql_ordered sampleStats (0 : Int)).1

/-- C3: when the earlier fields of a `PlayerScores` compound decode
(`Locked` a byte, `Name` a string), a `Score` field holding any of the
four signed integer widths yields the numerically equal 64-bit score, and
a `Score` field of any other node kind yields a type-mismatch error naming
the field `Score` — never a panic or a silent zero. -/
theorem playerScore_score_widening (val : List (String × Value)) (lk k : Int)
    (nm : String) (v : Value)
    (hl : mapGet val "Locked" = some (.byte lk))
    (hn : mapGet val "Name" = some (.string nm))
    (hs : mapGet val "Score" = some v) :
    ((v = .byte k ∨ v = .short k ∨ v = .int k ∨ v = .long k) →
      PlayerScore.tryFrom (.compound val) = .ok ⟨lk, nm, k⟩) ∧
    ((∀ m : Int, v ≠ .byte m ∧ v ≠ .short m ∧ v ≠ .int m ∧ v ≠ .long m) →
      PlayerScore.tryFrom (.compound val)
        = .error (.WrongTypeNbtField "Score" "Long, Int, Short, Byte" v)) := by
  constructor
  · rintro (rfl | rfl | rfl | rfl) <;>
      simp only [PlayerScore.tryFrom, hl, hn, hs]
  · intro hother
    simp only [PlayerScore.tryFrom, hl, hn, hs]
    cases v with
    | byte m => exact absurd rfl (hother m).1
    | short m => exact absurd rfl (hother m).2.1
    | int m => exact absurd rfl (hother m).2.2.1
    | long m => exact absurd rfl (hother m).2.2.2
    | float => rfl
    | double => rfl
    | byteArray a => rfl
    | string s => rfl
    | list l => rfl
    | compound c => rfl
    | intArray a => rfl
    | longArray a => rfl

/-- Witness for C3: byte `5` and long `5` both decode to score `5`, and a
string `Score` fails with the type-mismatch error naming `Score`. -/
theorem playerScore_score_widening_witness :
    (PlayerScore.tryFrom (.compound
        [("Locked", .byte 0), ("Name", .string "Alice"), ("Score", .byte 5)])
      = .ok ⟨0, "Alice", 5⟩) ∧
    (PlayerScore.tryFrom (.compound
        [("Locked", .byte 0), ("Name", .string "Alice"), ("Score", .long 5)])
      = .ok ⟨0, "Alice", 5⟩) ∧
    (PlayerScore.tryFrom (.compound
        [("Locked", .byte 0), ("Name", .string "Alice"), ("Score", .string "5")])
      = .error (.WrongTypeNbtField "Score" "Long, Int, Short, Byte" (.string "5"))) :=
  ⟨(playerScore_score_widening
      [("Locked", .byte 0), ("Name", .string "Alice"), ("Score", .byte 5)]
      0 5 "Alice" (.byte 5) rfl rfl rfl).1 (Or.inl rfl),
   (playerScore_score_widening
      [("Locked", .byte 0), ("Name", .string "Alice"), ("Score", .long 5)]
      0 5 "Alice" (.long 5) rfl rfl rfl).1 (Or.inr (Or.inr (Or.inr rfl))),
   (playerScore_score_widening
      [("Locked", .byte 0), ("Name", .string "Alice"), ("Score", .string "5")]
      0 0 "Alice" (.string "5") rfl rfl rfl).2
     (fun _ => ⟨fun h => Value.noConfusion h, fun h => Value.noConfusion h,
                fun h => Value.noConfusion h, fun h => Value.noConfusion h⟩)⟩

/-- C6 (counterexample evaluation): wrong-typed `CriteriaName`,
`display_auto_update` and `DisplayName` fields produce type-mismatch
errors naming the field correctly, but a wrong-typed `RenderType` field
produces an error naming the misspelled field `"RenderTyoe"`
(src/stats/mod.rs line 288), contradicting the claim for that field. -/
theorem objective_wrong_type_error_names :
    (Objective.tryFrom (.compound [("CriteriaName", .byte 1)])
      = .error (.WrongTypeNbtField "CriteriaName" "String" (.byte 1))) ∧
    (Objective.tryFrom (.compound
        [("CriteriaName", .string "c"), ("display_auto_update", .string "x")])
      = .error (.WrongTypeNbtField "display_auto_update" "Byte" (.string "x"))) ∧
    (Objective.tryFrom (.compound
        [("CriteriaName", .string "c"), ("display_auto_update", .byte 0),
         ("DisplayName", .byte 2)])
      = .error (.WrongTypeNbtField "DisplayName" "String" (.byte 2))) ∧
    (Objective.tryFrom (.compound
        [("CriteriaName", .string "c"), ("display_auto_update", .byte 0),
         ("DisplayName", .string "\"D\""), ("RenderType", .byte 1)])
      = .error (.WrongTypeNbtField "RenderTyoe" "String" (.byte 1))) :=
  ⟨rfl, rfl, rfl, rfl⟩

/-- C7 (counterexample evaluation): an `Objectives` field that is present
but not a list aborts the decode with an error, as the claim states, but a
`PlayerScores` field that is present but not a list hits
`panic!("Why is this not a list?")` (src/stats/mod.rs line 98) instead of
returning an error result. -/
theorem parse_blob_shape_outcomes :
    (Stats.parse_blob [("data", .compound
        [("Objectives", .byte 0), ("PlayerScores", .list [])])]
      = .error .objectivesNotList) ∧
    (Stats.parse_blob [("data", .compound
        [("Objectives", .list []), ("PlayerScores", .byte 0)])]
      = .panicked "Why is this not a list?") :=
  ⟨rfl, rfl⟩

theorem parseObjectivesLoop_missing_name (m : List (String × Value))
    (rest : List Value) (acc : List (String × Objective))
    (h : mapGet m "Name" = none) :
    parseObjectivesLoop (.compound m :: rest) acc
      = .panicked "called Option::unwrap() on a None value" := by
  simp only [parseObjectivesLoop, h]

theorem parsePlayerScoresLoop_missing_objective (m : List (String × Value))
    (rest : List Value) (acc : List (String × List PlayerScore))
    (h : mapGet m "Objective" = none) :
    parsePlayerScoresLoop (.compound m :: rest) acc
      = .panicked "called Option::unwrap() on a None value" := by
  simp only [parsePlayerScoresLoop, h]

/-- C9: if the first element of the `Objectives` list is a compound with
no `Name` field, or the first element of the `PlayerScores` list is a
compound with no `Objective` field, `parse_blob` panics (the source
`unwrap`s the key lookup) rather than returning a decode error — whatever
the rest of the input holds. -/
theorem parse_blob_missing_key_panics
    (m₁ m₂ : List (String × Value)) (rest₁ rest₂ : List Value) (ps : Value)
    (h₁ : mapGet m₁ "Name" = none) (h₂ : mapGet m₂ "Objective" = none) :
    (Stats.parse_blob [("data", .compound
        [("Objectives", .list (.compound m₁ :: rest₁)), ("PlayerScores", ps)])]
      = .panicked "called Option::unwrap() on a None value") ∧
    (Stats.parse_blob [("data", .compound
        [("Objectives", .list []),
         ("PlayerScores", .list (.compound m₂ :: rest₂))])]
      = .panicked "called Option::unwrap() on a None value") := by
  constructor
  · have hred : Stats.parse_blob [("data", .compound
        [("Objectives", .list (.compound m₁ :: rest₁)), ("PlayerScores", ps)])]
        = parseBlobAfterObjectives
            [("Objectives", .list (.compound m₁ :: rest₁)), ("PlayerScores", ps)]
            (parseObjectivesLoop (.compound m₁ :: rest₁) []) := rfl
    rw [hred, parseObjectivesLoop_missing_name m₁ rest₁ [] h₁]
    rfl
  · have hred : Stats.parse_blob [("data", .compound
        [("Objectives", .list []),
         ("PlayerScores", .list (.compound m₂ :: rest₂))])]
        = parseBlobFinish []
            (parsePlayerScoresLoop (.compound m₂ :: rest₂) []) := rfl
    rw [hred, parsePlayerScoresLoop_missing_objective m₂ rest₂ [] h₂]
    rfl

/-- Witness for C9 at concrete inputs: a keyless compound element in
either list makes the decode panic. -/
theorem parse_blob_missing_key_panics_witness :
    (Stats.parse_blob [("data", .compound
        [("Objectives", .list [Value.compound []]),
         ("PlayerScores", .list [])])]
      = .panicked "called Option::unwrap() on a None value") ∧
    (Stats.parse_blob [("data", .compound
        [("Objectives", .list []),
         ("PlayerScores", .list [Value.compound []])])]
      = .panicked "called Option::unwrap() on a None value") :=
  parse_blob_missing_key_panics [] [] [] [] (.list []) rfl rfl

/-- C10: display-name stripping is total and never fails: a raw string of
length at least 2 loses exactly its first and its last character (so a
2-character input becomes empty), and inputs of length 0 or 1 become the
empty string; an `Objective` compound with well-typed fields decodes
successfully for every raw `DisplayName` string, storing the stripped
name. -/
theorem stripDisplayName_total :
    (∀ (c₀ : Char) (mid : List Char) (c₁ : Char),
      stripDisplayName ⟨c₀ :: (mid ++ [c₁])⟩ = ⟨mid⟩) ∧
    stripDisplayName ⟨[]⟩ = ⟨[]⟩ ∧
    (∀ c : Char, stripDisplayName ⟨[c]⟩ = ⟨[]⟩) ∧
    (∀ (cn rt dn : String) (dau : Int),
      Objective.tryFrom (.compound
        [("CriteriaName", .string cn), ("display_auto_update", .byte dau),
         ("DisplayName", .string dn), ("RenderType", .string rt)])
        = .ok ⟨cn, dau, stripDisplayName dn, rt⟩) := by
  refine ⟨?_, rfl, fun c => rfl, fun cn rt dn dau => rfl⟩
  intro c₀ mid c₁
  show (⟨(mid ++ [c₁]).dropLast⟩ : String) = ⟨mid⟩
  rw [List.dropLast_concat]

end PooppiExport
